import Mathlib

/-!
Shallow embedding of the rope mesh geometry generator
(`src/packages/mesh/src/geometry/RopeGeometry.js`) and of the sprite-sheet
frame processing of the JSON loader (`src/unnamed/part_000`).

Modelling conventions:
* JS numbers are idealised as exact rationals (`ℚ`); a JS `NaN` in the vertex
  buffer is `none` in `Option ℚ`.
* A store into a JS typed array at an out-of-range position is a silent no-op,
  exactly like `List.set` past the end of a list.
* Values stored into the `Uint16Array` index buffer are reduced mod 2^16.
-/

namespace Pixi

/-- A 2D point (`PIXI.Point`), the element type of `Rope.points`. -/
structure Point2 where
  x : ℚ
  y : ℚ
deriving DecidableEq, Repr

/-- JS division `a / b` as `refreshVertices` uses it.  The only zero-divisor case
reachable there is `0 / 0` (the divisor is `Math.sqrt(perpX² + perpY²)`, which is
zero only when both numerators are zero), and JS evaluates `0 / 0` to NaN,
modelled as `none`.  A nonzero divisor divides exactly. -/
def jsDiv (a b : ℚ) : Option ℚ := if b = 0 then none else some (a / b)

/-- The integer square root `⌊√n⌋`, computed as the number of `j ∈ [1, n]` with
`j² ≤ n` (a kernel-reducible formulation, unlike `Nat.sqrt`). -/
def isqrt (n : ℕ) : ℕ := (List.range n).countP (fun k => decide ((k + 1) * (k + 1) ≤ n))

/-- `Math.sqrt`, modelled as an exact rational square root via the integer square
root of the numerator and denominator.  The model is exact on perfect squares
(the only inputs the concrete scenarios reach) and, like `Math.sqrt`, vanishes
exactly at input 0 among the nonnegative rationals — the two properties the
development relies on. -/
def ratSqrt (q : ℚ) : ℚ := (isqrt q.num.toNat : ℚ) / (isqrt q.den : ℚ)

theorem isqrt_pos (m : ℕ) (h : 1 ≤ m) : 0 < isqrt m := by
  unfold isqrt
  rw [List.countP_pos_iff]
  exact ⟨0, by simpa using h, by simpa using h⟩

/-- Write the values `vs` into `l` at consecutive positions starting at `p`
(`l[p] = vs[0]; l[p+1] = vs[1]; …`), the shape of every buffer-writing statement
group in `RopeGeometry.js`.  Out-of-range stores are no-ops, as on a JS typed
array. -/
def setChunk : List α → ℕ → List α → List α
  | l, _, [] => l
  | l, p, v :: vs => setChunk (l.set p v) (p + 1) vs

theorem setChunk_length (vs l : List α) (p : ℕ) :
    (setChunk l p vs).length = l.length := by
  induction vs generalizing l p with
  | nil => rfl
  | cons v vs ih => simp [setChunk, ih]

theorem take_succ_set (v : α) :
    ∀ (l : List α) (p : ℕ), p < l.length → (l.set p v).take (p + 1) = l.take p ++ [v] := by
  intro l
  induction l with
  | nil => intro p h; simp at h
  | cons a l ih =>
    intro p hp
    cases p with
    | zero => rfl
    | succ p =>
      simp only [List.set_cons_succ, List.take_succ_cons, List.cons_append]
      rw [ih p (by simpa using hp)]

theorem setChunk_eq_of_le (vs : List α) :
    ∀ (l : List α) (p : ℕ), p + vs.length ≤ l.length →
      setChunk l p vs = l.take p ++ vs ++ l.drop (p + vs.length) := by
  induction vs with
  | nil =>
    intro l p h
    simp only [setChunk, List.length_nil, Nat.add_zero, List.append_nil]
    exact (List.take_append_drop p l).symm
  | cons v vs ih =>
    intro l p h
    have hp : p < l.length := by simp at h; omega
    have h' : (p + 1) + vs.length ≤ (l.set p v).length := by simp at h ⊢; omega
    rw [setChunk, ih (l.set p v) (p + 1) h']
    rw [List.drop_set_of_lt v l (show p < p + 1 + vs.length by omega),
      take_succ_set v l p hp]
    simp only [List.length_cons, List.append_assoc, List.singleton_append]
    have harith : p + 1 + vs.length = p + (vs.length + 1) := by omega
    rw [harith]

theorem setChunk_append (vs : List α) :
    ∀ (A B : List α) (p : ℕ), setChunk (A ++ B) (A.length + p) vs = A ++ setChunk B p vs := by
  induction vs with
  | nil => intro A B p; rfl
  | cons v vs ih =>
    intro A B p
    have h1 : (A ++ B).set (A.length + p) v = A ++ B.set p v := by
      rw [List.set_append]
      simp
    rw [setChunk, h1, setChunk]
    have h2 : A.length + p + 1 = A.length + (p + 1) := by omega
    rw [h2, ih A (B.set p v) (p + 1)]

theorem length_flatMap_const (f : ℕ → List α) (w : ℕ) (hf : ∀ i, (f i).length = w)
    (is : List ℕ) : (is.flatMap f).length = is.length * w := by
  induction is with
  | nil => simp
  | cons i is ih =>
    simp only [List.flatMap_cons, List.length_append, hf, ih, List.length_cons]
    ring

/-- A loop `for (i = 0; i < n; i++)` whose body writes a `w`-wide block of values at
position `i * w` rewrites the first `w * n` entries of the buffer with the
concatenated blocks and leaves the rest untouched. -/
theorem foldl_setChunk_blocks (w : ℕ) (f : ℕ → List α) (hf : ∀ i, (f i).length = w) :
    ∀ (n : ℕ) (l : List α), w * n ≤ l.length →
      (List.range n).foldl (fun acc i => setChunk acc (i * w) (f i)) l
        = (List.range n).flatMap f ++ l.drop (w * n) := by
  intro n
  induction n with
  | zero => intro l _; simp
  | succ n ih =>
    intro l h
    have hmono : w * n ≤ w * (n + 1) := Nat.mul_le_mul_left w (Nat.le_succ n)
    have h' : w * n ≤ l.length := le_trans hmono h
    rw [List.range_succ, List.foldl_append, List.foldl_cons, List.foldl_nil, ih l h']
    have hA : ((List.range n).flatMap f).length = n * w := by
      rw [length_flatMap_const f w hf, List.length_range]
    have key := setChunk_append (f n) ((List.range n).flatMap f) (l.drop (w * n)) 0
    rw [hA, Nat.add_zero] at key
    have hsplit : w * (n + 1) = w * n + w := by ring
    have hBlen : 0 + (f n).length ≤ (l.drop (w * n)).length := by
      rw [hf n, List.length_drop]
      omega
    rw [key, setChunk_eq_of_le (f n) (l.drop (w * n)) 0 hBlen]
    rw [List.take_zero, List.nil_append, List.drop_drop,
      List.flatMap_append, List.flatMap_singleton, List.append_assoc]
    congr 2
    rw [hf n]
    congr 1
    omega

/-! ### The buffer writers of `Rope._refresh` and `Rope.refreshVertices` -/

/-- The UV parameter the `_refresh` loop writes for point `i`:
`amount = i / (total - 1)`. -/
def uvAmount (total i : ℕ) : ℚ := (i : ℚ) / ((total - 1 : ℕ) : ℚ)

/-- The UV rebuild of `Rope._refresh`: `uvs[0..3] = (0, 0, 0, 1)`, then for `i` in
`[1, total)` the loop writes `uvs[4i..4i+3] = (amount, 0, amount, 1)` with
`amount = i / (total - 1)`. -/
def writeUvs (total : ℕ) (uvs : List ℚ) : List ℚ :=
  (List.range' 1 (total - 1)).foldl
    (fun acc i => setChunk acc (i * 4) [uvAmount total i, 0, uvAmount total i, 1])
    (setChunk uvs 0 [0, 0, 0, 1])

/-- Closed form of the rebuilt UV array: two samples `(u, 0)` and `(u, 1)` per
point, flattened. -/
def uvClosed (total : ℕ) : List ℚ :=
  (List.range total).flatMap (fun i => [uvAmount total i, 0, uvAmount total i, 1])

/-- The index rebuild of `Rope._refresh`: `indices[0] = 0; indices[1] = 1`, then for
`i` in `[1, total)` the loop writes `indices[2i] = 2i` and `indices[2i+1] = 2i+1`
(stored into a `Uint16Array`, hence mod 2^16). -/
def writeIndices (total : ℕ) (idxs : List ℕ) : List ℕ :=
  (List.range' 1 (total - 1)).foldl
    (fun acc i => setChunk acc (i * 2) [(i * 2) % 65536, (i * 2 + 1) % 65536])
    (setChunk idxs 0 [0 % 65536, 1 % 65536])

/-- Closed form of the rebuilt index array: point `i` contributes the two
consecutive index values `2i` and `2i + 1`. -/
def idxClosed (total : ℕ) : List ℕ :=
  (List.range total).flatMap (fun i => [(i * 2) % 65536, (i * 2 + 1) % 65536])

theorem writeUvs_closed (total : ℕ) (uvs : List ℚ) (h1 : 1 ≤ total)
    (h : uvs.length = 4 * total) : writeUvs total uvs = uvClosed total := by
  have hrange : List.range total = 0 :: List.range' 1 (total - 1) := by
    cases total with
    | zero => omega
    | succ t => rw [List.range_eq_range', List.range'_succ]; simp
  have hw : writeUvs total uvs
      = (0 :: List.range' 1 (total - 1)).foldl
          (fun acc i => setChunk acc (i * 4) [uvAmount total i, 0, uvAmount total i, 1])
          uvs := by
    simp [writeUvs, uvAmount]
  have hmain := foldl_setChunk_blocks 4
    (fun i => [uvAmount total i, 0, uvAmount total i, 1]) (fun _ => rfl)
    total uvs (by omega)
  rw [hw, ← hrange, hmain, ← h, List.drop_length, List.append_nil]
  rfl

theorem writeIndices_closed (total : ℕ) (idxs : List ℕ) (h1 : 1 ≤ total)
    (h : idxs.length = 2 * total) : writeIndices total idxs = idxClosed total := by
  have hrange : List.range total = 0 :: List.range' 1 (total - 1) := by
    cases total with
    | zero => omega
    | succ t => rw [List.range_eq_range', List.range'_succ]; simp
  have hw : writeIndices total idxs
      = (0 :: List.range' 1 (total - 1)).foldl
          (fun acc i => setChunk acc (i * 2) [(i * 2) % 65536, (i * 2 + 1) % 65536])
          idxs := by
    simp [writeIndices]
  have hmain := foldl_setChunk_blocks 2
    (fun i => [(i * 2) % 65536, (i * 2 + 1) % 65536]) (fun _ => rfl)
    total idxs (by omega)
  rw [hw, ← hrange, hmain, ← h, List.drop_length, List.append_nil]
  rfl

/-- The `lastPoint` the `refreshVertices` loop holds at iteration `i`:
`points[i-1]`, and `points[0]` at `i = 0` (which truncated subtraction gives
directly). -/
def ropeLastPoint (points : List Point2) (i : ℕ) : Point2 :=
  points.getD (i - 1) ⟨0, 0⟩

/-- The `nextPoint` the `refreshVertices` loop reads at iteration `i`:
`points[i+1]`, or the point itself at the end of the sequence. -/
def ropeNextPoint (points : List Point2) (i : ℕ) : Point2 :=
  if i < points.length - 1 then points.getD (i + 1) ⟨0, 0⟩ else points.getD i ⟨0, 0⟩

/-- One iteration of the `refreshVertices` loop: the four scalars written at
`vertices[4i .. 4i+3]`.  The perpendicular of the local direction vector
(from `lastPoint` to `nextPoint`) is normalised by its length and scaled by half
the texture height; a zero-length perpendicular makes the normalisation `0 / 0`,
i.e. NaN (`none`), which then propagates into all four written scalars. -/
def vertexQuad (points : List Point2) (ht : ℚ) (i : ℕ) : List (Option ℚ) :=
  let point := points.getD i ⟨0, 0⟩
  let lastPoint := ropeLastPoint points i
  let nextPoint := ropeNextPoint points i
  let perpY := -(nextPoint.x - lastPoint.x)
  let perpX := nextPoint.y - lastPoint.y
  let perpLength := ratSqrt (perpX * perpX + perpY * perpY)
  let num := ht / 2
  let px := (jsDiv perpX perpLength).map (· * num)
  let py := (jsDiv perpY perpLength).map (· * num)
  [px.map (point.x + ·), py.map (point.y + ·), px.map (point.x - ·), py.map (point.y - ·)]

/-- The vertex write loop of `refreshVertices`: for each point `i` the body writes
the four scalars of `vertexQuad` at `vertices[4i .. 4i+3]`. -/
def writeVertices (points : List Point2) (ht : ℚ) (vd : List (Option ℚ)) :
    List (Option ℚ) :=
  (List.range points.length).foldl
    (fun acc i => setChunk acc (i * 4) (vertexQuad points ht i)) vd

/-- Closed form of the rewritten vertex buffer. -/
def vtxClosed (points : List Point2) (ht : ℚ) : List (Option ℚ) :=
  (List.range points.length).flatMap (vertexQuad points ht)

theorem writeVertices_closed (points : List Point2) (ht : ℚ) (vd : List (Option ℚ))
    (h : vd.length = 4 * points.length) : writeVertices points ht vd = vtxClosed points ht := by
  unfold writeVertices vtxClosed
  rw [foldl_setChunk_blocks 4 (vertexQuad points ht) (fun _ => rfl)
      points.length vd (by omega),
    ← h, List.drop_length, List.append_nil]

/-- Whether some iteration of the `refreshVertices` loop evaluates the taper-ratio
expression `(1 - (i / (total - 1))) * 10` with a zero denominator `total - 1`.
(The clamped ratio itself is dead code: the loop computes it but never uses it.) -/
def refreshVerticesRatioDenomZero (total : ℕ) : Bool :=
  (List.range total).any (fun _ => total - 1 == 0)

/-- Whether some iteration of the `_refresh` UV/index loop (over `i ∈ [1, total)`)
evaluates `amount = i / (total - 1)` with a zero denominator `total - 1`. -/
def refreshUvRatioDenomZero (total : ℕ) : Bool :=
  (List.range' 1 (total - 1)).any (fun _ => total - 1 == 0)

/-! ### The rope state machine -/

/-- The texture state the rope reads: whether `texture._uvs` is set, the logical
`texture.height` used as twice the ribbon half-width, and — modelled from the
spec: the texture-specific UV multiplier that `multiplyUvs` applies to each
`(u, v)` pair after the UV rebuild (`Mesh2d.multiplyUvs` is not among the
provided sources). -/
structure Texture where
  hasUvs : Bool
  height : ℚ
  uvMul : ℚ → ℚ → ℚ × ℚ

/-- Modelled from the spec: `multiplyUvs` applies the texture-specific UV
multiplier to every `(u, v)` pair of the UV array in place
(`Mesh2d.multiplyUvs` is not among the provided sources). -/
def applyUvTransform (tf : ℚ → ℚ → ℚ × ℚ) : List ℚ → List ℚ
  | u :: v :: rest => (tf u v).1 :: (tf u v).2 :: applyUvTransform tf rest
  | l => l

theorem applyUvTransform_length (tf : ℚ → ℚ → ℚ × ℚ) :
    ∀ l : List ℚ, (applyUvTransform tf l).length = l.length := by
  intro l
  induction l using applyUvTransform.induct tf with
  | case1 u v rest ih => simp [applyUvTransform, ih]
  | case2 l h => simp [applyUvTransform]

/-- The rope mesh state: the shared point list, the three geometry buffers (the
vertex buffer may hold NaN entries, hence `Option ℚ`), the texture, and the
`autoUpdate` flag. -/
structure RopeState where
  points : List Point2
  vertexData : List (Option ℚ)
  uvData : List ℚ
  indexData : List ℕ
  texture : Texture
  autoUpdate : Bool

/-- The externally visible steps of a refresh, listed in execution order by the
operations below: buffer reallocation, the UV/index rebuild, the buffer-update
signals (`update()` calls), the UV-multiplier application, the vertex rewrite,
the call into `refreshVertices`, and the container transform-update propagation. -/
inductive RefreshStep
  | reallocBuffers
  | writeUvIndex
  | sigUv
  | sigIndex
  | applyUvMultiplier
  | writeVertexData
  | sigVertex
  | callRefreshVertices
  | containerUpdate
deriving DecidableEq, Repr

/-- `Rope.refreshVertices`: return early when there are no points; otherwise
rewrite the vertex buffer in place and signal `geometry.buffers[0].update()`. -/
def refreshVertices (s : RopeState) : RopeState × List RefreshStep :=
  if s.points.length < 1 then (s, [])
  else
    ({ s with vertexData := writeVertices s.points s.texture.height s.vertexData },
     [RefreshStep.writeVertexData, RefreshStep.sigVertex])

/-- `Rope._refresh`: return early when there are no points or `texture._uvs` is not
yet set; otherwise reallocate all three buffers when the vertex buffer no longer
matches the point count (`vertexBuffer.data.length / 4 !== points.length`, i.e.
`length ≠ 4 * points.length`), rebuild UVs and indices, signal
`uvBuffer.update()` and `indexBuffer.update()`, apply the texture UV multiplier
(`multiplyUvs`), and recompute the vertices (`refreshVertices`, which signals the
vertex buffer).  The returned list records the steps in execution order. -/
def fullRefresh (s : RopeState) : RopeState × List RefreshStep :=
  if s.points.length < 1 ∨ s.texture.hasUvs = false then (s, [])
  else
    let n := s.points.length
    let realloc := s.vertexData.length ≠ 4 * n
    let vd := if realloc then List.replicate (n * 4) (some (0 : ℚ)) else s.vertexData
    let uv := if realloc then List.replicate (n * 4) (0 : ℚ) else s.uvData
    let ix := if realloc then List.replicate (n * 2) (0 : ℕ) else s.indexData
    let uv := writeUvs n uv
    let ix := writeIndices n ix
    let uv := applyUvTransform s.texture.uvMul uv
    let r := refreshVertices { s with vertexData := vd, uvData := uv, indexData := ix }
    (r.1, (if realloc then [RefreshStep.reallocBuffers] else []) ++
      [RefreshStep.writeUvIndex, RefreshStep.sigUv, RefreshStep.sigIndex,
       RefreshStep.applyUvMultiplier] ++ r.2)

/-- The `Rope` constructor: allocate a `Float32Array(points.length * 4)` vertex
buffer, a `Float32Array(points.length * 4)` UV buffer and a
`Uint16Array(points.length * 2)` index buffer (all zero-filled), store the shared
point list, and run one full refresh synchronously (`this.refresh()` dispatches
to `_refresh`). -/
def construct (texture : Texture) (points : List Point2) (autoUpdate : Bool) :
    RopeState × List RefreshStep :=
  fullRefresh
    { points := points
      vertexData := List.replicate (points.length * 4) (some 0)
      uvData := List.replicate (points.length * 4) 0
      indexData := List.replicate (points.length * 2) 0
      texture := texture
      autoUpdate := autoUpdate }

/-- `Rope.updateTransform`, the per-frame hook: call `refreshVertices` when
`autoUpdate` is set, then always call `containerUpdateTransform`. -/
def updateTransform (s : RopeState) : RopeState × List RefreshStep :=
  if s.autoUpdate then
    let r := refreshVertices s
    (r.1, RefreshStep.callRefreshVertices :: r.2 ++ [RefreshStep.containerUpdate])
  else (s, [RefreshStep.containerUpdate])

/-- The caller swapping the rope's shared point sequence (`rope.points = ps`). -/
def setPoints (s : RopeState) (ps : List Point2) : RopeState := { s with points := ps }

/-- The local direction vector that the `refreshVertices` loop reads at point `i`
is zero: the `lastPoint` and `nextPoint` of that iteration have equal
coordinates. -/
def dirZeroAt (points : List Point2) (i : ℕ) : Bool :=
  (ropeNextPoint points i).x == (ropeLastPoint points i).x &&
    (ropeNextPoint points i).y == (ropeLastPoint points i).y

/-! ### The sprite-sheet branch of `JsonLoader.onJSONLoaded` -/

/-- An axis-aligned rectangle (`core.math.Rectangle`). -/
structure Rectangle where
  x : ℚ
  y : ℚ
  w : ℚ
  h : ℚ
deriving DecidableEq, Repr

/-- A sprite-sheet `sourceSize` value `{w, h}`. -/
structure SourceSize where
  w : ℚ
  h : ℚ
deriving DecidableEq, Repr

/-- One entry of the sprite-sheet `frames` mapping as `JsonLoader.onJSONLoaded`
reads it: an optional `frame` rect (the loader skips entries without one), the
`trimmed` flag, and the `sourceSize` / `spriteSourceSize` fields it reads only
when `trimmed` is set. -/
structure FrameEntry where
  frame : Option Rectangle
  trimmed : Bool
  sourceSize : SourceSize
  spriteSourceSize : Rectangle
deriving DecidableEq, Repr

/-- Modelled from the spec: a texture region as the loader constructs it with
`new core.Texture(baseTexture, textureSize, crop, trim)` — the frame rectangle,
the crop rectangle, and the optional trim rectangle over the shared base texture
(`core.Texture` itself is not among the provided sources). -/
structure TextureRegion where
  frameRect : Rectangle
  crop : Rectangle
  trim : Option Rectangle
deriving DecidableEq, Repr

/-- The body of the sprite-sheet loop of `JsonLoader.onJSONLoaded` for one frame
entry: skip it when it has no `frame` rect (`if (rect)`); otherwise build the
texture region — with the trim rectangle combining `spriteSourceSize.x/y` and
`sourceSize.w/h` when the entry is trimmed — and store it into the process-wide
named `TextureCache` under the frame name. -/
def processFrame (cache : String → Option TextureRegion) (name : String)
    (e : FrameEntry) : String → Option TextureRegion :=
  match e.frame with
  | none => cache
  | some rect =>
    let textureSize := rect
    let crop := textureSize
    let trim : Option Rectangle :=
      if e.trimmed then
        some ⟨e.spriteSourceSize.x, e.spriteSourceSize.y, e.sourceSize.w, e.sourceSize.h⟩
      else none
    fun k => if k = name then some ⟨textureSize, crop, trim⟩ else cache k

/-- The sprite-sheet loop of `JsonLoader.onJSONLoaded`
(`for (var i in frameData)`), threading the named `TextureCache`. -/
def loadFrames (frames : List (String × FrameEntry))
    (cache : String → Option TextureRegion) : String → Option TextureRegion :=
  frames.foldl (fun c e => processFrame c e.1 e.2) cache

/-! ### Helper lemmas about the closed forms and the refresh operations -/

theorem uvClosed_length (n : ℕ) : (uvClosed n).length = 4 * n := by
  unfold uvClosed
  rw [length_flatMap_const (fun i => [uvAmount n i, 0, uvAmount n i, 1]) 4 (fun _ => rfl),
    List.length_range, Nat.mul_comm]

theorem idxClosed_length (n : ℕ) : (idxClosed n).length = 2 * n := by
  unfold idxClosed
  rw [length_flatMap_const (fun i => [(i * 2) % 65536, (i * 2 + 1) % 65536]) 2 (fun _ => rfl),
    List.length_range, Nat.mul_comm]

theorem vtxClosed_length (points : List Point2) (ht : ℚ) :
    (vtxClosed points ht).length = 4 * points.length := by
  unfold vtxClosed
  rw [length_flatMap_const (vertexQuad points ht) 4 (fun _ => rfl),
    List.length_range, Nat.mul_comm]

/-- Element lookup in a concatenation of uniform-width blocks. -/
theorem flatMap_blocks_getElem (w : ℕ) (f : ℕ → List α) (hf : ∀ i, (f i).length = w) :
    ∀ (n i j : ℕ), i < n → j < w →
      ((List.range n).flatMap f)[w * i + j]? = (f i)[j]? := by
  intro n
  induction n with
  | zero => intro i j hi _; omega
  | succ n ih =>
    intro i j hi hj
    rw [List.range_succ, List.flatMap_append, List.flatMap_singleton]
    have hA : ((List.range n).flatMap f).length = n * w :=
      (length_flatMap_const f w hf _).trans (by rw [List.length_range])
    have hcomm : w * n = n * w := Nat.mul_comm w n
    rcases Nat.lt_or_ge i n with hin | hin
    · have hmul : w * (i + 1) ≤ w * n :=
        Nat.mul_le_mul_left w (show i + 1 ≤ n by omega)
      have hsplit : w * (i + 1) = w * i + w := by ring
      have hlt : w * i + j < ((List.range n).flatMap f).length := by
        rw [hA]
        omega
      rw [List.getElem?_append_left hlt]
      exact ih i j hin hj
    · have hie : i = n := by omega
      subst hie
      have hge : ((List.range i).flatMap f).length ≤ w * i + j := by
        rw [hA, ← hcomm]
        omega
      rw [List.getElem?_append_right hge, hA]
      congr 1
      omega

theorem fullRefresh_noop (s : RopeState)
    (h : s.points.length < 1 ∨ s.texture.hasUvs = false) : fullRefresh s = (s, []) := by
  unfold fullRefresh
  rw [if_pos h]

/-- The final state and trace of `refreshVertices` when there is at least one
point and the vertex buffer has the matching size. -/
theorem refreshVertices_spec (s : RopeState) (h1 : 1 ≤ s.points.length)
    (h3 : s.vertexData.length = 4 * s.points.length) :
    refreshVertices s =
      ({ s with vertexData := vtxClosed s.points s.texture.height },
       [RefreshStep.writeVertexData, RefreshStep.sigVertex]) := by
  unfold refreshVertices
  rw [if_neg (by omega), writeVertices_closed _ _ _ h3]

/-- The final state and trace of `_refresh` when the guards pass and the vertex
buffer no longer matches the point count: all three buffers are reallocated and
every slot is freshly written, so the results are the closed forms, independent
of the previous buffer contents. -/
theorem fullRefresh_realloc (s : RopeState) (h1 : 1 ≤ s.points.length)
    (h2 : s.texture.hasUvs = true) (h3 : s.vertexData.length ≠ 4 * s.points.length) :
    fullRefresh s =
      ({ s with
          vertexData := vtxClosed s.points s.texture.height
          uvData := applyUvTransform s.texture.uvMul (uvClosed s.points.length)
          indexData := idxClosed s.points.length },
       [RefreshStep.reallocBuffers, RefreshStep.writeUvIndex, RefreshStep.sigUv,
        RefreshStep.sigIndex, RefreshStep.applyUvMultiplier,
        RefreshStep.writeVertexData, RefreshStep.sigVertex]) := by
  have hguard : ¬(s.points.length < 1 ∨ s.texture.hasUvs = false) := by
    rw [h2]
    simp only [Bool.true_eq_false, or_false]
    omega
  have hrv := refreshVertices_spec
    { s with
        vertexData := List.replicate (s.points.length * 4) (some (0 : ℚ))
        uvData := applyUvTransform s.texture.uvMul (uvClosed s.points.length)
        indexData := idxClosed s.points.length }
    h1 (by simp [Nat.mul_comm])
  unfold fullRefresh
  rw [if_neg hguard]
  simp only [h3, ne_eq, not_false_iff, if_true, ite_true,
    writeUvs_closed s.points.length (List.replicate (s.points.length * 4) 0) h1
      (by simp [Nat.mul_comm]),
    writeIndices_closed s.points.length (List.replicate (s.points.length * 2) 0) h1
      (by simp [Nat.mul_comm]),
    hrv]
  rfl

/-- The final state and trace of `_refresh` when the guards pass and all three
buffers already have the sizes matching the point count: no reallocation, but
every slot is still freshly written, so the results are again the closed forms. -/
theorem fullRefresh_insize (s : RopeState) (h1 : 1 ≤ s.points.length)
    (h2 : s.texture.hasUvs = true) (h3 : s.vertexData.length = 4 * s.points.length)
    (h4 : s.uvData.length = 4 * s.points.length)
    (h5 : s.indexData.length = 2 * s.points.length) :
    fullRefresh s =
      ({ s with
          vertexData := vtxClosed s.points s.texture.height
          uvData := applyUvTransform s.texture.uvMul (uvClosed s.points.length)
          indexData := idxClosed s.points.length },
       [RefreshStep.writeUvIndex, RefreshStep.sigUv, RefreshStep.sigIndex,
        RefreshStep.applyUvMultiplier, RefreshStep.writeVertexData,
        RefreshStep.sigVertex]) := by
  have hguard : ¬(s.points.length < 1 ∨ s.texture.hasUvs = false) := by
    rw [h2]
    simp only [Bool.true_eq_false, or_false]
    omega
  have hrv := refreshVertices_spec
    { s with
        uvData := applyUvTransform s.texture.uvMul (uvClosed s.points.length)
        indexData := idxClosed s.points.length }
    h1 h3
  unfold fullRefresh
  rw [if_neg hguard]
  simp only [h3, ne_eq, not_true_eq_false, if_false, ite_false,
    writeUvs_closed s.points.length s.uvData h1 h4,
    writeIndices_closed s.points.length s.indexData h1 h5,
    hrv]
  rfl

/-! ### The claims -/

theorem ratSqrt_natCast (n : ℕ) : ratSqrt (n : ℚ) = isqrt n := by
  simp [ratSqrt, Rat.num_natCast, Rat.den_natCast, show isqrt 1 = 1 from rfl]

/-- C3: for points `[(0,0), (10,0), (20,0)]` and a ready texture of logical height
10 (with an identity UV multiplier), the full refresh performed by the
constructor yields UVs `[(0,0),(0,1),(1/2,0),(1/2,1),(1,0),(1,1)]`, indices
`[0,1,2,3,4,5]` (point `i` contributes `2i` and `2i+1`), and a vertex pair at
each point offset from it by `(0, -5)` and `(0, +5)` (the path is horizontal, so
the scaled normal is vertical with length `10 / 2 = 5`). -/
theorem c3_scenario :
    (construct ⟨true, 10, fun u v => (u, v)⟩ [⟨0, 0⟩, ⟨10, 0⟩, ⟨20, 0⟩] true).1.uvData
        = [0, 0, 0, 1, 1/2, 0, 1/2, 1, 1, 0, 1, 1] ∧
    (construct ⟨true, 10, fun u v => (u, v)⟩ [⟨0, 0⟩, ⟨10, 0⟩, ⟨20, 0⟩] true).1.indexData
        = [0, 1, 2, 3, 4, 5] ∧
    (construct ⟨true, 10, fun u v => (u, v)⟩ [⟨0, 0⟩, ⟨10, 0⟩, ⟨20, 0⟩] true).1.vertexData
        = [some 0, some (-5), some 0, some 5, some 10, some (-5), some 10, some 5,
           some 20, some (-5), some 20, some 5] := by
  have h := fullRefresh_insize
    { points := [⟨0, 0⟩, ⟨10, 0⟩, ⟨20, 0⟩]
      vertexData := List.replicate 12 (some 0)
      uvData := List.replicate 12 0
      indexData := List.replicate 6 0
      texture := ⟨true, 10, fun u v => (u, v)⟩
      autoUpdate := true } (by decide) rfl (by decide) (by decide) (by decide)
  have hconstruct :
      construct ⟨true, 10, fun u v => (u, v)⟩ [⟨0, 0⟩, ⟨10, 0⟩, ⟨20, 0⟩] true
        = fullRefresh
            { points := [⟨0, 0⟩, ⟨10, 0⟩, ⟨20, 0⟩]
              vertexData := List.replicate 12 (some 0)
              uvData := List.replicate 12 0
              indexData := List.replicate 6 0
              texture := ⟨true, 10, fun u v => (u, v)⟩
              autoUpdate := true } := rfl
  rw [hconstruct, h]
  refine ⟨?_, ?_, ?_⟩
  · show applyUvTransform (fun u v => (u, v)) (uvClosed 3) = _
    have huv : uvClosed 3 = [0, 0, 0, 1, 1/2, 0, 1/2, 1, 1, 0, 1, 1] := by
      simp [uvClosed, uvAmount, List.range_succ]
    rw [huv]
    simp [applyUvTransform]
  · show idxClosed 3 = _
    decide
  · show vtxClosed [⟨0, 0⟩, ⟨10, 0⟩, ⟨20, 0⟩] 10 = _
    simp [vtxClosed, List.range_succ, vertexQuad, ropeLastPoint, ropeNextPoint, jsDiv, ratSqrt]
    set_option maxRecDepth 4000 in
    norm_num [show isqrt (Int.toNat 100) = 10 from rfl,
      show isqrt (Int.toNat 400) = 20 from rfl, show isqrt 1 = 1 from rfl]

/-- C4: when the texture's UV metadata is absent (`texture._uvs` unset),
`_refresh` returns early: the state — in particular all three buffers' contents
and lengths — is unchanged and no buffer-update signal is recorded. -/
theorem c4_notReady_noop (s : RopeState) (h : s.texture.hasUvs = false) :
    fullRefresh s = (s, []) :=
  fullRefresh_noop s (Or.inr h)

theorem c4_witness :
    fullRefresh
      { points := [⟨0, 0⟩]
        vertexData := [some 7, some 7, some 7, some 7]
        uvData := [7, 7, 7, 7]
        indexData := [7, 7]
        texture := ⟨false, 10, fun u v => (u, v)⟩
        autoUpdate := true }
      = ({ points := [⟨0, 0⟩]
           vertexData := [some 7, some 7, some 7, some 7]
           uvData := [7, 7, 7, 7]
           indexData := [7, 7]
           texture := ⟨false, 10, fun u v => (u, v)⟩
           autoUpdate := true }, []) :=
  c4_notReady_noop _ rfl

/-- C8: the per-frame hook `updateTransform` calls `refreshVertices` exactly when
`autoUpdate` is true, always propagates `containerUpdateTransform`, and with
`autoUpdate` false it leaves the whole state (all three buffers included)
unchanged. -/
theorem c8_updateTransform (s : RopeState) :
    ((RefreshStep.callRefreshVertices ∈ (updateTransform s).2) ↔ s.autoUpdate = true) ∧
    RefreshStep.containerUpdate ∈ (updateTransform s).2 ∧
    (s.autoUpdate = false → (updateTransform s).1 = s) := by
  cases hau : s.autoUpdate with
  | false => simp [updateTransform, hau]
  | true =>
    refine ⟨by simp [updateTransform, hau], ?_, by simp [hau]⟩
    unfold updateTransform refreshVertices
    rw [if_pos hau]
    by_cases hn : s.points.length < 1 <;> simp [hn]

theorem c8_witness :
    (updateTransform
        { points := [⟨0, 0⟩]
          vertexData := [some 7, some 7, some 7, some 7]
          uvData := [7, 7, 7, 7]
          indexData := [7, 7]
          texture := ⟨true, 10, fun u v => (u, v)⟩
          autoUpdate := false }).1
      = { points := [⟨0, 0⟩]
          vertexData := [some 7, some 7, some 7, some 7]
          uvData := [7, 7, 7, 7]
          indexData := [7, 7]
          texture := ⟨true, 10, fun u v => (u, v)⟩
          autoUpdate := false } ∧
    RefreshStep.containerUpdate ∈
      (updateTransform
        { points := [⟨0, 0⟩]
          vertexData := [some 7, some 7, some 7, some 7]
          uvData := [7, 7, 7, 7]
          indexData := [7, 7]
          texture := ⟨true, 10, fun u v => (u, v)⟩
          autoUpdate := false }).2 := by
  have h := c8_updateTransform
    { points := [⟨0, 0⟩]
      vertexData := [some 7, some 7, some 7, some 7]
      uvData := [7, 7, 7, 7]
      indexData := [7, 7]
      texture := ⟨true, 10, fun u v => (u, v)⟩
      autoUpdate := false }
  exact ⟨h.2.2 rfl, h.2.1⟩

/-- C1 is false as stated for a resize to zero points: construct a rope with one
point (ready texture), swap the point sequence to `[]`, and call `fullRefresh`.
The claim demands reallocation to the new sizes `4·0 = 0`, `0`, `0`, but the
`points.length < 1` guard returns early: all three buffers keep their old sizes
`4, 4, 2` and no step of the refresh (no signal) happens. -/
theorem c1_counterexample :
    (fullRefresh (setPoints
        (construct ⟨true, 10, fun u v => (u, v)⟩ [⟨0, 0⟩] true).1 [])).1.vertexData.length = 4 ∧
    (fullRefresh (setPoints
        (construct ⟨true, 10, fun u v => (u, v)⟩ [⟨0, 0⟩] true).1 [])).1.uvData.length = 4 ∧
    (fullRefresh (setPoints
        (construct ⟨true, 10, fun u v => (u, v)⟩ [⟨0, 0⟩] true).1 [])).1.indexData.length = 2 ∧
    (fullRefresh (setPoints
        (construct ⟨true, 10, fun u v => (u, v)⟩ [⟨0, 0⟩] true).1 [])).2 = [] := by
  have hnoop : ∀ s : RopeState, fullRefresh (setPoints s []) = (setPoints s [], []) := by
    intro s
    exact fullRefresh_noop _ (Or.inl (by simp [setPoints]))
  rw [hnoop]
  have h := fullRefresh_insize
    { points := [⟨0, 0⟩]
      vertexData := List.replicate 4 (some 0)
      uvData := List.replicate 4 0
      indexData := List.replicate 2 0
      texture := ⟨true, 10, fun u v => (u, v)⟩
      autoUpdate := true } (by decide) rfl (by decide) (by decide) (by decide)
  have hc : construct ⟨true, 10, fun u v => (u, v)⟩ [⟨0, 0⟩] true
      = fullRefresh
          { points := [⟨0, 0⟩]
            vertexData := List.replicate 4 (some 0)
            uvData := List.replicate 4 0
            indexData := List.replicate 2 0
            texture := ⟨true, 10, fun u v => (u, v)⟩
            autoUpdate := true } := rfl
  rw [hc, h]
  refine ⟨?_, ?_, ?_, rfl⟩
  · show (vtxClosed [⟨0, 0⟩] 10).length = 4
    rw [vtxClosed_length]
    decide
  · show (applyUvTransform (fun u v => (u, v)) (uvClosed 1)).length = 4
    rw [applyUvTransform_length, uvClosed_length]
  · show (idxClosed 1).length = 2
    rw [idxClosed_length]


/-- Common length bookkeeping: a `fullRefresh` on a state whose three buffers are
sized for the current point count returns buffers of exactly those sizes. -/
theorem fullRefresh_lengths (s : RopeState)
    (h3 : s.vertexData.length = 4 * s.points.length)
    (h4 : s.uvData.length = 4 * s.points.length)
    (h5 : s.indexData.length = 2 * s.points.length) :
    (fullRefresh s).1.vertexData.length = 4 * s.points.length ∧
    (fullRefresh s).1.uvData.length = 4 * s.points.length ∧
    (fullRefresh s).1.indexData.length = 2 * s.points.length := by
  by_cases hg : s.points.length < 1 ∨ s.texture.hasUvs = false
  · rw [fullRefresh_noop s hg]
    exact ⟨h3, h4, h5⟩
  · push_neg at hg
    have h2 : s.texture.hasUvs = true := by
      cases htu : s.texture.hasUvs
      · exact absurd htu hg.2
      · rfl
    rw [fullRefresh_insize s (by omega) h2 h3 h4 h5]
    refine ⟨?_, ?_, ?_⟩
    · show (vtxClosed s.points s.texture.height).length = 4 * s.points.length
      rw [vtxClosed_length]
    · show (applyUvTransform s.texture.uvMul (uvClosed s.points.length)).length
          = 4 * s.points.length
      rw [applyUvTransform_length, uvClosed_length]
    · show (idxClosed s.points.length).length = 2 * s.points.length
      rw [idxClosed_length]

/-- C1 (amended): after `construct` with `N` points the buffers have lengths
`4N`, `4N`, `2N` — for any texture and any `N ≥ 0`.  Changing the point count and
calling `fullRefresh` with a ready texture reallocates all three buffers to the
exact new sizes and rewrites every slot (the results are the closed forms,
independent of the previous contents) — but only when the new count `M`
satisfies `M ≥ 1`; for `M = 0` the `points.length < 1` guard makes `fullRefresh`
a no-op, so the buffers keep their previous sizes and contents. -/
theorem c1_bufferSizes :
    (∀ (tex : Texture) (pts : List Point2) (au : Bool),
        (construct tex pts au).1.vertexData.length = 4 * pts.length ∧
        (construct tex pts au).1.uvData.length = 4 * pts.length ∧
        (construct tex pts au).1.indexData.length = 2 * pts.length) ∧
    (∀ s : RopeState, s.texture.hasUvs = true → 1 ≤ s.points.length →
        s.vertexData.length ≠ 4 * s.points.length →
        (fullRefresh s).1.vertexData.length = 4 * s.points.length ∧
        (fullRefresh s).1.uvData.length = 4 * s.points.length ∧
        (fullRefresh s).1.indexData.length = 2 * s.points.length ∧
        (fullRefresh s).1.vertexData = vtxClosed s.points s.texture.height ∧
        (fullRefresh s).1.uvData
          = applyUvTransform s.texture.uvMul (uvClosed s.points.length) ∧
        (fullRefresh s).1.indexData = idxClosed s.points.length) ∧
    (∀ s : RopeState, s.points.length = 0 → fullRefresh s = (s, [])) := by
  refine ⟨?_, ?_, ?_⟩
  · intro tex pts au
    exact fullRefresh_lengths
      { points := pts
        vertexData := List.replicate (pts.length * 4) (some 0)
        uvData := List.replicate (pts.length * 4) 0
        indexData := List.replicate (pts.length * 2) 0
        texture := tex
        autoUpdate := au }
      (by simp [Nat.mul_comm]) (by simp [Nat.mul_comm]) (by simp [Nat.mul_comm])
  · intro s h2 h1 hne
    rw [fullRefresh_realloc s h1 h2 hne]
    refine ⟨?_, ?_, ?_, rfl, rfl, rfl⟩
    · show (vtxClosed s.points s.texture.height).length = 4 * s.points.length
      rw [vtxClosed_length]
    · show (applyUvTransform s.texture.uvMul (uvClosed s.points.length)).length
          = 4 * s.points.length
      rw [applyUvTransform_length, uvClosed_length]
    · show (idxClosed s.points.length).length = 2 * s.points.length
      rw [idxClosed_length]
  · intro s h0
    exact fullRefresh_noop s (Or.inl (by omega))

theorem c1_witness :
    (construct ⟨true, 10, fun u v => (u, v)⟩ [⟨0, 0⟩, ⟨1, 0⟩] true).1.vertexData.length
        = 4 * 2 ∧
    (fullRefresh
        { points := [⟨0, 0⟩, ⟨1, 0⟩]
          vertexData := List.replicate 4 (some 0)
          uvData := List.replicate 4 0
          indexData := List.replicate 2 0
          texture := ⟨true, 10, fun u v => (u, v)⟩
          autoUpdate := true }).1.vertexData.length = 4 * 2 ∧
    fullRefresh
        { points := []
          vertexData := List.replicate 4 (some 0)
          uvData := List.replicate 4 0
          indexData := List.replicate 2 0
          texture := ⟨true, 10, fun u v => (u, v)⟩
          autoUpdate := true }
      = ({ points := []
           vertexData := List.replicate 4 (some 0)
           uvData := List.replicate 4 0
           indexData := List.replicate 2 0
           texture := ⟨true, 10, fun u v => (u, v)⟩
           autoUpdate := true }, []) := by
  refine ⟨(c1_bufferSizes.1 ⟨true, 10, fun u v => (u, v)⟩ [⟨0, 0⟩, ⟨1, 0⟩] true).1,
    (c1_bufferSizes.2.1
      { points := [⟨0, 0⟩, ⟨1, 0⟩]
        vertexData := List.replicate 4 (some 0)
        uvData := List.replicate 4 0
        indexData := List.replicate 2 0
        texture := ⟨true, 10, fun u v => (u, v)⟩
        autoUpdate := true } rfl (by decide) (by decide)).1,
    c1_bufferSizes.2.2 _ rfl⟩

/-- C2: for `N ≥ 2`, after the UV rebuild the two samples written for point `i`
are `(i/(N−1), 0)` and `(i/(N−1), 1)`; the UV parameter is `0` at `i = 0`, `1` at
`i = N−1`, and monotonically non-decreasing in `i`. -/
theorem c2_uvSamples (N i : ℕ) (uvs : List ℚ) (hN : 2 ≤ N)
    (hlen : uvs.length = 4 * N) (hi : i < N) :
    (writeUvs N uvs)[4 * i]? = some (uvAmount N i) ∧
    (writeUvs N uvs)[4 * i + 1]? = some 0 ∧
    (writeUvs N uvs)[4 * i + 2]? = some (uvAmount N i) ∧
    (writeUvs N uvs)[4 * i + 3]? = some 1 ∧
    uvAmount N i = (i : ℚ) / ((N : ℚ) - 1) ∧
    uvAmount N 0 = 0 ∧ uvAmount N (N - 1) = 1 ∧
    (∀ j k : ℕ, j ≤ k → uvAmount N j ≤ uvAmount N k) := by
  have hcast : ((N - 1 : ℕ) : ℚ) = (N : ℚ) - 1 := by
    rw [Nat.cast_sub (by omega), Nat.cast_one]
  have hpos : (0 : ℚ) < ((N - 1 : ℕ) : ℚ) := by
    rw [hcast]
    have : (2 : ℚ) ≤ (N : ℚ) := by exact_mod_cast hN
    linarith
  have hget := fun (j : ℕ) (hj : j < 4) => flatMap_blocks_getElem 4
    (fun i => [uvAmount N i, 0, uvAmount N i, 1]) (fun _ => rfl) N i j hi hj
  rw [writeUvs_closed N uvs (by omega) hlen]
  unfold uvClosed
  refine ⟨by simpa using hget 0 (by omega), by simpa using hget 1 (by omega),
    by simpa using hget 2 (by omega), by simpa using hget 3 (by omega),
    by rw [uvAmount, hcast], by simp [uvAmount], ?_, ?_⟩
  · rw [uvAmount]
    exact div_self (ne_of_gt hpos)
  · intro j k hjk
    unfold uvAmount
    exact (div_le_div_iff_of_pos_right hpos).mpr (by exact_mod_cast hjk)

theorem c2_witness :
    (writeUvs 3 (List.replicate 12 0))[4 * 2]? = some (uvAmount 3 2) ∧
    uvAmount 3 0 = 0 ∧ uvAmount 3 (3 - 1) = 1 := by
  have h := c2_uvSamples 3 2 (List.replicate 12 0) (by omega) (by simp) (by omega)
  exact ⟨h.1, h.2.2.2.2.2.1, h.2.2.2.2.2.2.1⟩

/-- C5 is false in one conjunct: with a single point, the `refreshVertices` loop
does run one iteration (`i = 0`), and its taper-ratio expression
`(1 - (i / (total - 1))) * 10` divides by the zero denominator `total - 1 = 0`
(`0 / 0`, NaN in JS) — contradicting "no division by zero occurs on the
'total points − 1' normalization denominator". -/
theorem c5_counterexample :
    refreshVerticesRatioDenomZero ([⟨0, 0⟩] : List Point2).length = true := by decide

/-- C5 (amended): for a single point and a ready texture, `fullRefresh` and
`refreshVertices` terminate normally (the full step traces are produced, no early
return) and the single point's UV pair is written with `u = 0` (samples
`(0,0)` and `(0,1)`, then passed through the UV multiplier); the `_refresh` UV
loop never divides by the zero denominator — but the dead taper-ratio expression
in `refreshVertices` does evaluate `0 / (total − 1)` with `total − 1 = 0`, its
NaN result being discarded. -/
theorem c5_singlePoint (s : RopeState) (hp : s.points.length = 1)
    (h2 : s.texture.hasUvs = true) (h3 : s.vertexData.length = 4)
    (h4 : s.uvData.length = 4) (h5 : s.indexData.length = 2) :
    (fullRefresh s).1.uvData = applyUvTransform s.texture.uvMul [0, 0, 0, 1] ∧
    (fullRefresh s).2
      = [RefreshStep.writeUvIndex, RefreshStep.sigUv, RefreshStep.sigIndex,
         RefreshStep.applyUvMultiplier, RefreshStep.writeVertexData,
         RefreshStep.sigVertex] ∧
    (refreshVertices s).2 = [RefreshStep.writeVertexData, RefreshStep.sigVertex] ∧
    refreshUvRatioDenomZero s.points.length = false ∧
    refreshVerticesRatioDenomZero s.points.length = true := by
  have h := fullRefresh_insize s (by omega) h2 (by omega) (by omega) (by omega)
  have huv1 : uvClosed s.points.length = [0, 0, 0, 1] := by
    rw [hp]
    simp [uvClosed, uvAmount, List.range_succ]
  have hrv := refreshVertices_spec s (by omega) (by omega)
  refine ⟨?_, ?_, ?_, ?_, ?_⟩
  · rw [h]
    show applyUvTransform s.texture.uvMul (uvClosed s.points.length) = _
    rw [huv1]
  · rw [h]
  · rw [hrv]
  · rw [hp]
    decide
  · rw [hp]
    decide

theorem c5_witness :
    (fullRefresh
        { points := [⟨3, 4⟩]
          vertexData := List.replicate 4 (some 0)
          uvData := List.replicate 4 0
          indexData := List.replicate 2 0
          texture := ⟨true, 10, fun u v => (u, v)⟩
          autoUpdate := true }).1.uvData
      = applyUvTransform (fun u v => (u, v)) [0, 0, 0, 1] ∧
    refreshVerticesRatioDenomZero 1 = true := by
  have h := c5_singlePoint
    { points := [⟨3, 4⟩]
      vertexData := List.replicate 4 (some 0)
      uvData := List.replicate 4 0
      indexData := List.replicate 2 0
      texture := ⟨true, 10, fun u v => (u, v)⟩
      autoUpdate := true } rfl rfl (by decide) (by decide) (by decide)
  exact ⟨h.1, h.2.2.2.2⟩

/-- C6: `fullRefresh` is idempotent: a second call with unchanged points and
texture leaves all three buffers with contents identical to those after the
first call (the second rebuild overwrites every slot with the same pure
functions of the points and texture). -/
theorem c6_idempotent (s : RopeState)
    (h4 : s.uvData.length = s.vertexData.length)
    (h5 : 2 * s.indexData.length = s.vertexData.length) :
    (fullRefresh (fullRefresh s).1).1.vertexData = (fullRefresh s).1.vertexData ∧
    (fullRefresh (fullRefresh s).1).1.uvData = (fullRefresh s).1.uvData ∧
    (fullRefresh (fullRefresh s).1).1.indexData = (fullRefresh s).1.indexData := by
  by_cases hg : s.points.length < 1 ∨ s.texture.hasUvs = false
  · simp [fullRefresh_noop s hg]
  · push_neg at hg
    have h1 : 1 ≤ s.points.length := by omega
    have h2 : s.texture.hasUvs = true := by
      cases htu : s.texture.hasUvs
      · exact absurd htu hg.2
      · rfl
    have hs1 : (fullRefresh s).1
        = { s with
            vertexData := vtxClosed s.points s.texture.height
            uvData := applyUvTransform s.texture.uvMul (uvClosed s.points.length)
            indexData := idxClosed s.points.length } := by
      by_cases hr : s.vertexData.length = 4 * s.points.length
      · rw [fullRefresh_insize s h1 h2 hr (by omega) (by omega)]
      · rw [fullRefresh_realloc s h1 h2 hr]
    have h2nd := fullRefresh_insize
      { s with
          vertexData := vtxClosed s.points s.texture.height
          uvData := applyUvTransform s.texture.uvMul (uvClosed s.points.length)
          indexData := idxClosed s.points.length }
      h1 h2 (vtxClosed_length s.points s.texture.height)
      (by simp [applyUvTransform_length, uvClosed_length])
      (idxClosed_length s.points.length)
    rw [hs1, h2nd]
    exact ⟨rfl, rfl, rfl⟩

theorem c6_witness :
    (fullRefresh (fullRefresh
        { points := [⟨0, 0⟩, ⟨2, 1⟩]
          vertexData := List.replicate 8 (some 0)
          uvData := List.replicate 8 0
          indexData := List.replicate 4 0
          texture := ⟨true, 10, fun u v => (u, v)⟩
          autoUpdate := true }).1).1.uvData
      = (fullRefresh
        { points := [⟨0, 0⟩, ⟨2, 1⟩]
          vertexData := List.replicate 8 (some 0)
          uvData := List.replicate 8 0
          indexData := List.replicate 4 0
          texture := ⟨true, 10, fun u v => (u, v)⟩
          autoUpdate := true }).1.uvData := by
  have h := c6_idempotent
    { points := [⟨0, 0⟩, ⟨2, 1⟩]
      vertexData := List.replicate 8 (some 0)
      uvData := List.replicate 8 0
      indexData := List.replicate 4 0
      texture := ⟨true, 10, fun u v => (u, v)⟩
      autoUpdate := true } (by decide) (by decide)
  exact h.2.1

/-- C7 is false as stated: in the trace of a full refresh the `uvBuffer.update()`
and `indexBuffer.update()` signals are issued immediately after the UV/index
rebuild and BEFORE `multiplyUvs` applies the texture-specific UV multiplier and
before the vertices are recomputed — not after them as the claim requires. -/
theorem c7_counterexample :
    (construct ⟨true, 10, fun u v => (u, v)⟩ [⟨0, 0⟩, ⟨10, 0⟩] true).2
      = [RefreshStep.writeUvIndex, RefreshStep.sigUv, RefreshStep.sigIndex,
         RefreshStep.applyUvMultiplier, RefreshStep.writeVertexData,
         RefreshStep.sigVertex] ∧
    (construct ⟨true, 10, fun u v => (u, v)⟩ [⟨0, 0⟩, ⟨10, 0⟩] true).2.indexOf
        RefreshStep.sigUv
      < (construct ⟨true, 10, fun u v => (u, v)⟩ [⟨0, 0⟩, ⟨10, 0⟩] true).2.indexOf
        RefreshStep.applyUvMultiplier := by
  have h := fullRefresh_insize
    { points := [⟨0, 0⟩, ⟨10, 0⟩]
      vertexData := List.replicate 8 (some 0)
      uvData := List.replicate 8 0
      indexData := List.replicate 4 0
      texture := ⟨true, 10, fun u v => (u, v)⟩
      autoUpdate := true } (by decide) rfl (by decide) (by decide) (by decide)
  have hc : construct ⟨true, 10, fun u v => (u, v)⟩ [⟨0, 0⟩, ⟨10, 0⟩] true
      = fullRefresh
          { points := [⟨0, 0⟩, ⟨10, 0⟩]
            vertexData := List.replicate 8 (some 0)
            uvData := List.replicate 8 0
            indexData := List.replicate 4 0
            texture := ⟨true, 10, fun u v => (u, v)⟩
            autoUpdate := true } := rfl
  rw [hc, h]
  exact ⟨rfl, by decide⟩

/-- C7 (amended): with a ready texture and at least one point, the steps of
`_refresh` occur in this order: (optional buffer reallocation,) UV/index
rebuild, buffer-update signal for the UV buffer, buffer-update signal for the
index buffer, application of the texture-specific UV multiplier, vertex
recomputation, buffer-update signal for the vertex buffer.  So the UV and index
signals are issued BEFORE the UV multiplier is applied. -/
theorem c7_signalOrder (s : RopeState) (h1 : 1 ≤ s.points.length)
    (h2 : s.texture.hasUvs = true) :
    (fullRefresh s).2
      = (if s.vertexData.length = 4 * s.points.length then []
         else [RefreshStep.reallocBuffers]) ++
        [RefreshStep.writeUvIndex, RefreshStep.sigUv, RefreshStep.sigIndex,
         RefreshStep.applyUvMultiplier, RefreshStep.writeVertexData,
         RefreshStep.sigVertex] := by
  by_cases hr : s.vertexData.length = 4 * s.points.length
  · rw [if_pos hr, List.nil_append]
    have hguard : ¬(s.points.length < 1 ∨ s.texture.hasUvs = false) := by
      rw [h2]
      simp only [Bool.true_eq_false, or_false]
      omega
    unfold fullRefresh refreshVertices
    rw [if_neg hguard]
    simp [hr, show ¬(s.points.length < 1) by omega]
  · rw [if_neg hr]
    rw [fullRefresh_realloc s h1 h2 hr]
    rfl

theorem c7_witness :
    (fullRefresh
        { points := [⟨0, 0⟩, ⟨10, 0⟩]
          vertexData := List.replicate 8 (some 0)
          uvData := List.replicate 8 0
          indexData := List.replicate 4 0
          texture := ⟨true, 10, fun u v => (u, v)⟩
          autoUpdate := true }).2
      = [RefreshStep.writeUvIndex, RefreshStep.sigUv, RefreshStep.sigIndex,
         RefreshStep.applyUvMultiplier, RefreshStep.writeVertexData,
         RefreshStep.sigVertex] := by
  have h := c7_signalOrder
    { points := [⟨0, 0⟩, ⟨10, 0⟩]
      vertexData := List.replicate 8 (some 0)
      uvData := List.replicate 8 0
      indexData := List.replicate 4 0
      texture := ⟨true, 10, fun u v => (u, v)⟩
      autoUpdate := true } (by decide) rfl
  simpa using h

theorem processFrame_ne (cache : String → Option TextureRegion) (n : String)
    (e : FrameEntry) (k : String) (h : k ≠ n) : processFrame cache n e k = cache k := by
  unfold processFrame
  cases e.frame <;> simp [h]

theorem loadFrames_notmem (frames : List (String × FrameEntry)) :
    ∀ (cache : String → Option TextureRegion) (k : String),
      k ∉ frames.map Prod.fst → loadFrames frames cache k = cache k := by
  induction frames with
  | nil => intro cache k _; rfl
  | cons p rest ih =>
    intro cache k hk
    rw [List.map_cons, List.mem_cons, not_or] at hk
    show loadFrames rest (processFrame cache p.1 p.2) k = cache k
    rw [ih (processFrame cache p.1 p.2) k hk.2, processFrame_ne cache p.1 p.2 k hk.1]

/-- C9: processing a sprite-sheet `frames` mapping stores, for each entry that has
a `frame` rect, exactly one texture region in the named cache under the entry's
frame-name, with the frame rect as both the source and the crop rectangle; when
the entry is `trimmed`, the trim rectangle combines the `spriteSourceSize`
offset `(x, y)` with the `sourceSize` dimensions `(w, h)`. -/
theorem c9_frameTextures (frames : List (String × FrameEntry))
    (cache : String → Option TextureRegion) (name : String) (e : FrameEntry)
    (r : Rectangle) (hmem : (name, e) ∈ frames) (hr : e.frame = some r)
    (hnodup : (frames.map Prod.fst).Nodup) :
    loadFrames frames cache name =
      some { frameRect := r, crop := r,
             trim := if e.trimmed then
                 some { x := e.spriteSourceSize.x, y := e.spriteSourceSize.y,
                        w := e.sourceSize.w, h := e.sourceSize.h }
               else none } := by
  induction frames generalizing cache with
  | nil => cases hmem
  | cons p rest ih =>
    rw [List.map_cons, List.nodup_cons] at hnodup
    obtain ⟨hnotin, hnodup'⟩ := hnodup
    rcases List.mem_cons.mp hmem with heq | hmem'
    · obtain ⟨n₀, e₀⟩ := p
      obtain ⟨hn, he⟩ := Prod.mk.injEq .. ▸ heq
      subst hn
      subst he
      show loadFrames rest (processFrame cache name e) name = _
      rw [loadFrames_notmem rest _ name hnotin]
      unfold processFrame
      rw [hr]
      simp
    · show loadFrames rest (processFrame cache p.1 p.2) name = _
      exact ih (processFrame cache p.1 p.2) hmem' hnodup'

theorem c9_witness :
    loadFrames
      [("walk1", { frame := some ⟨1, 2, 30, 40⟩, trimmed := true,
                   sourceSize := ⟨32, 48⟩, spriteSourceSize := ⟨1, 4, 30, 40⟩ }),
       ("walk2", { frame := some ⟨33, 2, 30, 40⟩, trimmed := false,
                   sourceSize := ⟨32, 48⟩, spriteSourceSize := ⟨0, 0, 30, 40⟩ })]
      (fun _ => none) "walk1"
      = some { frameRect := ⟨1, 2, 30, 40⟩, crop := ⟨1, 2, 30, 40⟩,
               trim := some ⟨1, 4, 32, 48⟩ } := by
  have h := c9_frameTextures
    [("walk1", { frame := some ⟨1, 2, 30, 40⟩, trimmed := true,
                 sourceSize := ⟨32, 48⟩, spriteSourceSize := ⟨1, 4, 30, 40⟩ }),
     ("walk2", { frame := some ⟨33, 2, 30, 40⟩, trimmed := false,
                 sourceSize := ⟨32, 48⟩, spriteSourceSize := ⟨0, 0, 30, 40⟩ })]
    (fun _ => none) "walk1"
    { frame := some ⟨1, 2, 30, 40⟩, trimmed := true,
      sourceSize := ⟨32, 48⟩, spriteSourceSize := ⟨1, 4, 30, 40⟩ }
    ⟨1, 2, 30, 40⟩ (by simp) rfl (by simp)
  simpa using h

theorem vertexQuad_dirZero (points : List Point2) (ht : ℚ) (i : ℕ)
    (h : dirZeroAt points i = true) :
    vertexQuad points ht i = [none, none, none, none] := by
  unfold dirZeroAt at h
  rw [Bool.and_eq_true, beq_iff_eq, beq_iff_eq] at h
  simp only [vertexQuad]
  rw [h.1, h.2]
  have hz : ratSqrt 0 = 0 := by
    simp [ratSqrt, show isqrt 0 = 0 from rfl]
  simp [jsDiv, hz]

/-- C10 (implicit): whenever the local direction vector at point `i` is zero —
which holds for every single-point sequence, and whenever the `lastPoint` and
`nextPoint` of that iteration coincide (e.g. consecutive duplicate points) — the
perpendicular length is `0` and the unguarded `0 / 0` normalisation writes NaN
into all four scalars of that point's two vertex entries; no error is raised and
every other point is still processed (the whole buffer is rewritten to the
per-point closed form and the vertex-buffer signal is still issued). -/
theorem c10_nanVertices :
    (∀ pts : List Point2, pts.length = 1 → dirZeroAt pts 0 = true) ∧
    (∀ (s : RopeState) (i : ℕ), s.vertexData.length = 4 * s.points.length →
      i < s.points.length → dirZeroAt s.points i = true →
      (refreshVertices s).1.vertexData[4 * i]? = some none ∧
      (refreshVertices s).1.vertexData[4 * i + 1]? = some none ∧
      (refreshVertices s).1.vertexData[4 * i + 2]? = some none ∧
      (refreshVertices s).1.vertexData[4 * i + 3]? = some none ∧
      (refreshVertices s).1.vertexData = vtxClosed s.points s.texture.height ∧
      (refreshVertices s).2 = [RefreshStep.writeVertexData, RefreshStep.sigVertex]) := by
  constructor
  · intro pts hlen
    match pts, hlen with
    | [p], _ =>
      simp [dirZeroAt, ropeNextPoint, ropeLastPoint]
  · intro s i hlen hi hdir
    have hrv := refreshVertices_spec s (by omega) hlen
    have hget := fun (j : ℕ) (hj : j < 4) => flatMap_blocks_getElem 4
      (vertexQuad s.points s.texture.height) (fun _ => rfl) s.points.length i j hi hj
    have hquad := vertexQuad_dirZero s.points s.texture.height i hdir
    rw [hrv]
    refine ⟨?_, ?_, ?_, ?_, rfl, rfl⟩
    · have := hget 0 (by omega)
      rw [hquad] at this
      show (vtxClosed s.points s.texture.height)[4 * i]? = some none
      unfold vtxClosed
      simpa using this
    · have := hget 1 (by omega)
      rw [hquad] at this
      show (vtxClosed s.points s.texture.height)[4 * i + 1]? = some none
      unfold vtxClosed
      simpa using this
    · have := hget 2 (by omega)
      rw [hquad] at this
      show (vtxClosed s.points s.texture.height)[4 * i + 2]? = some none
      unfold vtxClosed
      simpa using this
    · have := hget 3 (by omega)
      rw [hquad] at this
      show (vtxClosed s.points s.texture.height)[4 * i + 3]? = some none
      unfold vtxClosed
      simpa using this

theorem c10_witness :
    dirZeroAt [(⟨0, 0⟩ : Point2), ⟨0, 0⟩, ⟨10, 0⟩] 0 = true ∧
    (refreshVertices
        { points := [⟨0, 0⟩, ⟨0, 0⟩, ⟨10, 0⟩]
          vertexData := List.replicate 12 (some 0)
          uvData := List.replicate 12 0
          indexData := List.replicate 6 0
          texture := ⟨true, 10, fun u v => (u, v)⟩
          autoUpdate := true }).1.vertexData[0]? = some none := by
  have hd : dirZeroAt [(⟨0, 0⟩ : Point2), ⟨0, 0⟩, ⟨10, 0⟩] 0 = true := by
    simp [dirZeroAt, ropeNextPoint, ropeLastPoint]
  have h := c10_nanVertices.2
    { points := [⟨0, 0⟩, ⟨0, 0⟩, ⟨10, 0⟩]
      vertexData := List.replicate 12 (some 0)
      uvData := List.replicate 12 0
      indexData := List.replicate 6 0
      texture := ⟨true, 10, fun u v => (u, v)⟩
      autoUpdate := true } 0 (by decide) (by decide) hd
  exact ⟨hd, by simpa using h.1⟩

end Pixi
